import Mathlib

/-!
Verification of the chat-bot command parsing and notification layer
(`slack.go` of the ci-chat-bot repository).

Strings are modelled by Lean `String` (a wrapper around `List Char`); Go byte
indices become positions in the character list.  Go `time.Time` values are
modelled as `Int` nanoseconds since the Unix epoch (Go durations are `int64`
nanosecond counts, and Go integer division truncates toward zero, which is
`Int.tdiv` here).  Maps with insertion order are modelled as association
lists with in-place overwrite (`upsert`).  Functions of the repository that
are referenced by `slack.go` but whose sources are not available
(`paramsFromAnnotation`, the `supported*` allow-lists, the job-type and
prow-state constants) are modelled from the specification; the allow-lists
become explicit list parameters.
-/

namespace CiChatBot

/-- Index of the first occurrence of `c` in a character list, returned as the
pieces before and after it (`strings.Index` followed by the two slicings used
in `stripLinks`). -/
def splitFirst (c : Char) : List Char → Option (List Char × List Char)
  | [] => none
  | x :: xs =>
    if x = c then some ([], xs)
    else (splitFirst c xs).map (fun pq => (x :: pq.1, pq.2))

theorem splitFirst_eq_some {c : Char} :
    ∀ {s p q : List Char}, splitFirst c s = some (p, q) → s = p ++ c :: q := by
  intro s
  induction s with
  | nil => intro p q h; simp [splitFirst] at h
  | cons x xs ih =>
    intro p q h
    simp only [splitFirst] at h
    by_cases hx : x = c
    · simp [hx] at h
      obtain ⟨rfl, rfl⟩ := h
      simp [hx]
    · rcases hsp : splitFirst c xs with _ | ⟨a, b⟩ <;> rw [hsp] at h <;> simp [hx] at h
      obtain ⟨rfl, rfl⟩ := h
      simp [ih hsp]

theorem splitFirst_eq_none {c : Char} :
    ∀ {s : List Char}, c ∉ s → splitFirst c s = none := by
  intro s
  induction s with
  | nil => intro _; rfl
  | cons x xs ih =>
    intro h
    simp only [List.mem_cons, not_or] at h
    simp only [splitFirst]
    rw [if_neg (fun hc => h.1 hc.symm), ih h.2]
    rfl

theorem splitFirst_append {c : Char} {p q : List Char} (hp : c ∉ p) :
    splitFirst c (p ++ c :: q) = some (p, q) := by
  induction p with
  | nil => simp [splitFirst]
  | cons x xs ih =>
    simp only [List.mem_cons, not_or] at hp
    simp only [List.cons_append, splitFirst, List.append_eq]
    rw [if_neg (fun hc => hp.1 hc.symm), ih hp.2]
    rfl

/-- One pass of the `stripLinks` loop, with explicit gas so that the
recursion is structural.  Each loop iteration of the Go code consumes at
least the `<` and `>` characters, so `s.length` gas always suffices;
`stripGas_congr` below shows the gas does not matter once sufficient. -/
def stripGas : Nat → List Char → List Char
  | 0, s => s
  | gas + 1, s =>
    (splitFirst '<' s).elim s fun pa =>
      (splitFirst '>' pa.2).elim s fun sg =>
        pa.1 ++ (splitFirst '|' sg.1).elim sg.1 Prod.snd ++ stripGas gas sg.2

/-- Embedding of `stripLinks` (slack.go lines 579-604) on character lists:
repeatedly find the next `<`; if none, emit the rest verbatim; find the
following `>`; if none, emit the rest verbatim; otherwise emit the text
before `<`, then the span after the first `|` of the span (or the whole
span when it has no `|`), and continue after the `>`. -/
def stripLinksL (s : List Char) : List Char := stripGas s.length s

theorem stripGas_congr :
    ∀ (gas gas' : Nat) (s : List Char), s.length ≤ gas → s.length ≤ gas' →
      stripGas gas s = stripGas gas' s := by
  intro gas
  induction gas with
  | zero =>
    intro gas' s hg _
    have hs : s = [] := List.length_eq_zero.mp (Nat.le_zero.mp hg)
    subst hs
    cases gas' <;> simp [stripGas, splitFirst]
  | succ g ih =>
    intro gas' s hg hg'
    cases gas' with
    | zero =>
      have hs : s = [] := List.length_eq_zero.mp (Nat.le_zero.mp hg')
      subst hs
      simp [stripGas, splitFirst]
    | succ g' =>
      simp only [stripGas]
      rcases h1 : splitFirst '<' s with _ | pa
      · simp
      · rcases h2 : splitFirst '>' pa.2 with _ | sg
        · simp [h2]
        · have e1 := splitFirst_eq_some h1
          have e2 := splitFirst_eq_some h2
          have hlen : sg.2.length < s.length := by
            rw [e1, e2]
            simp [List.length_append]
            omega
          have hle : sg.2.length ≤ g := by omega
          have hle' : sg.2.length ≤ g' := by omega
          simp only [h2, Option.elim_some]
          rw [ih g' sg.2 hle hle']

/-- Unfolding equation of `stripLinksL`, mirroring one iteration of the Go
loop. -/
theorem stripLinksL_eq (s : List Char) :
    stripLinksL s =
      (splitFirst '<' s).elim s fun pa =>
        (splitFirst '>' pa.2).elim s fun sg =>
          pa.1 ++ (splitFirst '|' sg.1).elim sg.1 Prod.snd ++ stripLinksL sg.2 := by
  show stripGas s.length s = _
  rcases hn : s.length with _ | g
  · have hs : s = [] := List.length_eq_zero.mp hn
    subst hs
    simp [stripGas, splitFirst]
  · simp only [stripGas]
    rcases h1 : splitFirst '<' s with _ | pa
    · simp
    · rcases h2 : splitFirst '>' pa.2 with _ | sg
      · simp [h2]
      · have e1 := splitFirst_eq_some h1
        have e2 := splitFirst_eq_some h2
        have hlen : sg.2.length < s.length := by
          rw [e1, e2]
          simp [List.length_append]
          omega
        have heq : stripGas g sg.2 = stripLinksL sg.2 :=
          stripGas_congr g sg.2.length sg.2 (by omega) (le_refl _)
        simp only [h2, Option.elim_some]
        rw [heq]

/-- String-level `stripLinks` (slack.go lines 579-604). -/
def stripLinks (s : String) : String := ⟨stripLinksL s.data⟩

/-- ASCII model of the whitespace set of Go `strings.TrimSpace`. -/
def isSpaceChar (c : Char) : Bool :=
  c = ' ' || c = '\t' || c = '\n' || c = '\r'

/-- Trim of leading and trailing whitespace (`strings.TrimSpace`). -/
def trimSpaceL (s : List Char) : List Char :=
  ((s.dropWhile isSpaceChar).reverse.dropWhile isSpaceChar).reverse

/-- Split on every occurrence of the character `c`
(`strings.Split` with a one-character separator). -/
def splitOnChar (c : Char) : List Char → List (List Char)
  | [] => [[]]
  | x :: xs =>
    if x = c then [] :: splitOnChar c xs
    else
      match splitOnChar c xs with
      | [] => [[x]]
      | y :: ys => (x :: y) :: ys

/-- Contiguous-substring test on character lists (`strings.Contains`). -/
def containsSub : List Char → List Char → Bool
  | [], sub => sub.isEmpty
  | c :: rest, sub => sub.isPrefixOf (c :: rest) || containsSub rest sub

/-- String-level `strings.Contains`. -/
def strContains (s sub : String) : Bool := containsSub s.data sub.data

/-- Membership helper `contains` of the repository (a linear scan over a
string slice). -/
def contains (arr : List String) (s : String) : Bool := arr.contains s

/-- Embedding of `codeSlice` (slack.go lines 556-562): wrap every item in
backquotes. -/
def codeSlice (items : List String) : List String :=
  items.map fun item => "`" ++ item ++ "`"

/-- Embedding of `isDirectMessage` (slack.go lines 552-554):
`strings.HasPrefix(channel, "D")`. -/
def isDirectMessage (channel : String) : Bool := "D".data.isPrefixOf channel.data

/-- Insert-or-overwrite into an association list, keeping the position of an
existing key (Go map assignment `m[k] = v`, with insertion order tracked). -/
def upsert : List (String × String) → String → String → List (String × String)
  | [], k, v => [(k, v)]
  | (k0, v0) :: rest, k, v =>
    if k0 = k then (k0, v) :: rest else (k0, v0) :: upsert rest k v

/-- Association-list lookup (Go map read `m[k]`; `none` is the missing-key
case, whose Go zero value is the empty string). -/
def lookupP : List (String × String) → String → Option String
  | [], _ => none
  | (k0, v0) :: rest, k => if k0 = k then some v0 else lookupP rest k

/-- Split of one option item at its first `=` (`strings.SplitN(part, "=", 2)`):
a bare token maps to the empty value. -/
def splitKV (part : List Char) : String × String :=
  (splitFirst '=' part).elim (⟨part⟩, "") fun pq => (⟨pq.1⟩, ⟨pq.2⟩)

/-- Modelled from the spec: `paramsFromAnnotation` is code of this repository
that is not under src/.  Per the specification it splits the option string on
commas, splits each item at its first `=` (bare tokens map to an empty
value), and produces a mapping with last-write-wins on duplicate keys. -/
def paramsFromAnnotation (value : String) : List (String × String) :=
  (splitOnChar ',' value.data).foldl
    (fun acc part => upsert acc (splitKV part).1 (splitKV part).2) []

/-- Embedding of the key-classification loop of `parseOptions` (slack.go
lines 612-633) over the keys in insertion order: a key in the platform
allow-list is recorded (at most once), a key in the architecture allow-list
is recorded (at most once), the empty key is dropped, a key in the generic
parameter allow-list stays in the mapping, and anything else is an
unrecognized-option error. -/
def classifyOpts (sp sa spar : List String) :
    List (String × String) → String → String →
    Except String (String × String × List (String × String))
  | [], platform, architecture => .ok (platform, architecture, [])
  | (k, v) :: rest, platform, architecture =>
    if contains sp k then
      if platform ≠ "" then .error "you may only specify one platform in options"
      else classifyOpts sp sa spar rest k architecture
    else if contains sa k then
      if architecture ≠ "" then .error "you may only specify one architecture in options"
      else classifyOpts sp sa spar rest platform k
    else if k = "" then classifyOpts sp sa spar rest platform architecture
    else if contains spar k then
      (classifyOpts sp sa spar rest platform architecture).map
        fun r => (r.1, r.2.1, (k, v) :: r.2.2)
    else .error ("unrecognized option: " ++ k)

/-- Embedding of `parseOptions` (slack.go lines 606-641), with the three
allow-lists (supported platforms, architectures and generic parameters)
passed explicitly since their membership lives in configuration outside
src/. -/
def parseOptions (sp sa spar : List String) (options : String) :
    Except String (String × String × List (String × String)) :=
  (classifyOpts sp sa spar ( paramsFromAnnotation options) "" "").map fun r =>
    (if r.1 = "" then "gcp" else r.1, if r.2.1 = "" then "amd64" else r.2.1, r.2.2)

/-- Embedding of `parseImageInput` (slack.go lines 564-577): trim, empty means
no inputs, otherwise strip links, split on commas and reject empty items. -/
def parseImageInput (input : String) : Except String (List String) :=
  let t := trimSpaceL input.data
  if t = [] then .ok []
  else
    let parts := splitOnChar ',' (stripLinksL t)
    if parts.any fun p => p = [] then .error "image inputs must not contain empty items"
    else .ok (parts.map fun p => (⟨p⟩ : String))

/-- Modelled from the spec: the job-type tag (`JobType*` constants of the
repository, not under src/) distinguishing launch, workflow-launch, test,
upgrade-test, build and install requests. -/
inductive JobType
  | install
  | launch
  | upgrade
  | test
  | build
  | workflowLaunch
  deriving DecidableEq

/-- Modelled from the spec: the prow job status enum
(`prowapiv1.*State`, not under src/). -/
inductive ProwState
  | triggered
  | pending
  | success
  | failure
  | aborted
  | errorState
  deriving DecidableEq

/-- True exactly on the two cluster-launch modes, the first switch of
`notifyJob` and `jobResponder` (`case JobTypeLaunch, JobTypeWorkflowLaunch`). -/
def isLaunchMode : JobType → Bool
  | .launch => true
  | .workflowLaunch => true
  | _ => false

/-- True exactly on the three failed terminal prow states
(`case prowapiv1.FailureState, prowapiv1.AbortedState, prowapiv1.ErrorState`). -/
def isFailedState : ProwState → Bool
  | .failure => true
  | .aborted => true
  | .errorState => true
  | _ => false

/-- Embedding of `JobRequest` (constructed by the command handlers). -/
structure JobRequest where
  originalMessage : String
  user : String
  inputs : List (List String)
  type : JobType
  channel : String
  platform : String
  jobParams : List (String × String)
  architecture : String
  workflowName : String := ""
  deriving DecidableEq

/-- Embedding of the `Job` snapshot fields read by `jobResponder` and
`notifyJob`.  `requestedAt` and `expiresAt` are nanoseconds since the Unix
epoch. -/
structure Job where
  name : String
  mode : JobType
  state : ProwState
  url : String
  credentials : String
  failure : String
  passwordSnippet : String
  requestedBy : String
  requestedChannel : String
  originalMessage : String
  requestedAt : Int
  expiresAt : Int
  legacyConfig : Bool
  deriving DecidableEq

/-- The file-attachment side effect of `sendKubeconfig` (slack.go lines
516-529), as the argument record of `UploadFile`. -/
structure Attachment where
  content : String
  channels : List String
  filename : String
  filetype : String
  initialComment : String
  deriving DecidableEq

/-- Observable outcome of one `notifyJob` call: the replies sent in order,
and at most one file attachment. -/
structure NotifyResult where
  replies : List String
  attachment : Option Attachment
  deriving DecidableEq

/-- Nanoseconds in a Go `time.Minute`. -/
def nsPerMinute : Int := 60000000000

/-- Two-digit zero padding of a calendar field. -/
def pad2 (n : Int) : String := if n < 10 then "0" ++ toString n else toString n

/-- Civil date from days since the Unix epoch (proleptic Gregorian
calendar), used to model Go `time.Time.Format`. -/
def civilFromDays (z : Int) : Int × Int × Int :=
  let z := z + 719468
  let era := Int.ediv z 146097
  let doe := z - era * 146097
  let yoe := Int.ediv (doe - Int.ediv doe 1460 + Int.ediv doe 36524 - Int.ediv doe 146096) 365
  let y := yoe + era * 400
  let doy := doe - (365 * yoe + Int.ediv yoe 4 - Int.ediv yoe 100)
  let mp := Int.ediv (5 * doy + 2) 153
  let d := doy - Int.ediv (153 * mp + 2) 5 + 1
  let m := mp + (if mp < 10 then 3 else -9)
  (if m ≤ 2 then y + 1 else y, m, d)

/-- Model of `time.Time.Format("2006-01-02-150405")` in UTC on a timestamp
given as nanoseconds since the Unix epoch. -/
def formatTimestamp (t : Int) : String :=
  let secs := Int.ediv t 1000000000
  let days := Int.ediv secs 86400
  let sod := Int.emod secs 86400
  let ymd := civilFromDays days
  toString ymd.1 ++ "-" ++ pad2 ymd.2.1 ++ "-" ++ pad2 ymd.2.2 ++ "-" ++
    pad2 (Int.ediv sod 3600) ++ pad2 (Int.emod (Int.ediv sod 60) 60) ++ pad2 (Int.emod sod 60)

/-- Embedding of `sendKubeconfig` (slack.go lines 516-529): the upload
parameters of the credentials attachment. -/
def sendKubeconfig (channel contents comment identifier : String) : Attachment :=
  { content := contents
    channels := [channel]
    filename := "cluster-bot-" ++ identifier ++ ".kubeconfig"
    filetype := "text"
    initialComment := comment }

/-- The legacy-template warning replied first for launch-mode jobs with the
legacy flag set (slack.go line 451). -/
def legacyWarning : String :=
  "WARNING: using legacy template based job for this cluster. This is unsupported and the cluster may not install as expected. Contact #forum-crt for more information."

/-- The running/progress section shared by both non-launch branches of
`notifyJob` (slack.go lines 495-513). -/
def notifyJobRunning (job : Job) (now : Int) : NotifyResult :=
  if job.credentials = "" ∧ job.url ≠ "" then
    if job.originalMessage ≠ "" then
      { replies := ["job <" ++ job.url ++ "|" ++ job.originalMessage ++ "> is running"]
        attachment := none }
    else
      { replies := ["job is running, see " ++ job.url ++ " for details"]
        attachment := none }
  else if job.credentials = "" then
    { replies := ["job is running (launched " ++
        toString (Int.tdiv (now - job.requestedAt) nsPerMinute) ++ " minutes ago)"]
      attachment := none }
  else
    let comment := "Your job has started a cluster, it will be shut down when the test ends."
    let comment := if job.url ≠ "" then comment ++ " See " ++ job.url ++ " for details." else comment
    let comment := if job.passwordSnippet ≠ "" then comment ++ "\n" ++ job.passwordSnippet else comment
    { replies := []
      attachment := some (sendKubeconfig job.requestedChannel job.credentials comment
        (formatTimestamp job.requestedAt)) }

/-- Embedding of `notifyJob` (slack.go lines 447-514): the launch-mode
decision tree, then for other modes the terminal-state branches (with and
without a URL) and the running/progress fallthrough. -/
def notifyJob (job : Job) (now : Int) : NotifyResult :=
  if isLaunchMode job.mode then
    let legacy := if job.legacyConfig then [legacyWarning] else []
    if job.failure ≠ "" ∧ job.url ≠ "" then
      { replies := legacy ++ ["your cluster failed to launch: " ++ job.failure ++
          " (<" ++ job.url ++ "|logs>)"]
        attachment := none }
    else if job.failure ≠ "" then
      { replies := legacy ++ ["your cluster failed to launch: " ++ job.failure]
        attachment := none }
    else if job.credentials = "" ∧ job.url ≠ "" then
      { replies := legacy ++ ["cluster is still starting (launched " ++
          toString (Int.tdiv (now - job.requestedAt) nsPerMinute) ++ " minutes ago, <" ++
          job.url ++ "|logs>)"]
        attachment := none }
    else if job.credentials = "" then
      { replies := legacy ++ ["cluster is still starting (launched " ++
          toString (Int.tdiv (now - job.requestedAt) nsPerMinute) ++ " minutes ago)"]
        attachment := none }
    else
      let comment := "Your cluster is ready, it will be shut down automatically in ~" ++
        toString (Int.tdiv (job.expiresAt - now) nsPerMinute) ++ " minutes."
      let comment := if job.passwordSnippet ≠ "" then comment ++ "\n" ++ job.passwordSnippet else comment
      { replies := legacy
        attachment := some (sendKubeconfig job.requestedChannel job.credentials comment
          (formatTimestamp job.requestedAt)) }
  else if job.url ≠ "" then
    if isFailedState job.state then
      { replies := ["job <" ++ job.url ++ "|" ++ job.originalMessage ++ "> failed"]
        attachment := none }
    else if job.state = .success then
      { replies := ["job <" ++ job.url ++ "|" ++ job.originalMessage ++ "> succeeded"]
        attachment := none }
    else notifyJobRunning job now
  else
    if isFailedState job.state then
      { replies := ["job " ++ job.originalMessage ++ " failed, but no details could be retrieved"]
        attachment := none }
    else if job.state = .success then
      { replies := ["job " ++ job.originalMessage ++ " succeded, but no details could be retrieved"]
        attachment := none }
    else notifyJobRunning job now

/-- Embedding of `jobResponder` (slack.go lines 425-445): `none` when the
delivered job snapshot is dropped without any message, otherwise the
`notifyJob` rendering. -/
def jobResponder (job : Job) (now : Int) : Option NotifyResult :=
  if job.requestedChannel = "" ∨ job.requestedBy = "" then none
  else if isLaunchMode job.mode then
    if job.credentials = "" ∧ job.failure = "" then none
    else some (notifyJob job now)
  else
    if job.url = "" ∧ job.failure = "" then none
    else some (notifyJob job now)

/-- The call a handler makes into the opaque `JobManager`, if any. -/
inductive ManagerAction
  | launchJob (req : JobRequest)
  | syncJob (user : String)
  | terminateJob (user : String)
  | getLaunchJob (user : String)
  deriving DecidableEq

/-- Observable outcome of one command handler invocation: the replies sent
before (or instead of) the manager call, and the manager call itself. -/
structure HandlerResult where
  replies : List String
  action : Option ManagerAction
  deriving DecidableEq

/-- Embedding of the `launch` command handler (slack.go lines 45-88) up to
the `LaunchJobForUser` call. -/
def launchHandler (sp sa spar : List String) (user channel text imgStr optStr : String) :
    HandlerResult :=
  if !isDirectMessage channel then
    { replies := ["this command is only accepted via direct message"], action := none }
  else
    match parseImageInput imgStr with
    | .error e => { replies := [e], action := none }
    | .ok fromL =>
      let inputs := if fromL ≠ [] then [fromL] else []
      match parseOptions sp sa spar optStr with
      | .error e => { replies := [e], action := none }
      | .ok (platform, architecture, params) =>
        if (lookupP params "test").getD "" ≠ "" then
          { replies := ["Test arguments may not be passed from the launch command"], action := none }
        else
          { replies := []
            action := some (.launchJob
              { originalMessage := stripLinks text
                user := user
                inputs := inputs
                type := .install
                channel := channel
                platform := platform
                jobParams := params
                architecture := architecture }) }

/-- Embedding of the `refresh` command handler (slack.go lines 113-129) up
to the `SyncJobForUser` call. -/
def refreshHandler (user channel : String) : HandlerResult :=
  if !isDirectMessage channel then
    { replies := ["you must direct message me this request"], action := none }
  else { replies := [], action := some (.syncJob user) }

/-- Embedding of the `done` command handler (slack.go lines 130-146) up to
the `TerminateJobForUser` call. -/
def doneHandler (user channel : String) : HandlerResult :=
  if !isDirectMessage channel then
    { replies := ["you must direct message me this request"], action := none }
  else { replies := [], action := some (.terminateJob user) }

/-- Embedding of the `auth` command handler (slack.go lines 148-165) up to
the `GetLaunchJob` call. -/
def authHandler (user channel : String) : HandlerResult :=
  if !isDirectMessage channel then
    { replies := ["you must direct message me this request"], action := none }
  else { replies := [], action := some (.getLaunchJob user) }

/-- Embedding of the `test upgrade` command handler (slack.go lines 167-226)
up to the `LaunchJobForUser` call: requires a non-empty `from`, defaults an
empty `to` to `from`, defaults the `test` parameter to `e2e-upgrade`, and
rejects resolved `test` values without `-upgrade`. -/
def testUpgradeHandler (sp sa spar : List String)
    (user channel text fromStr toStr optStr : String) : HandlerResult :=
  if !isDirectMessage channel then
    { replies := ["this command is only accepted via direct message"], action := none }
  else
    match parseImageInput fromStr with
    | .error e => { replies := [e], action := none }
    | .ok fromL =>
      if fromL = [] then
        { replies := ["you must specify an image to upgrade from and to"], action := none }
      else
        match parseImageInput toStr with
        | .error e => { replies := [e], action := none }
        | .ok toL =>
          let toL := if toL = [] then fromL else toL
          match parseOptions sp sa spar optStr with
          | .error e => { replies := [e], action := none }
          | .ok (platform, architecture, params) =>
            let params :=
              if (lookupP params "test").getD "" = "" then upsert params "test" "e2e-upgrade"
              else params
            if !strContains ((lookupP params "test").getD "") "-upgrade" then
              { replies := ["Only upgrade type tests may be run from this command"], action := none }
            else
              { replies := []
                action := some (.launchJob
                  { originalMessage := stripLinks text
                    user := user
                    inputs := [fromL, toL]
                    type := .upgrade
                    channel := channel
                    platform := platform
                    jobParams := params
                    architecture := architecture }) }

/-- Embedding of the `test` command handler (slack.go lines 228-286) up to
the `LaunchJobForUser` call.  Note the empty-name reply at lines 249-251 has
no `return`: the handler keeps going, and replies (not returns) again with a
warning when the name is not in the supported-test list. -/
def testHandler (sts sp sa spar : List String)
    (user channel text nameStr imgStr optStr : String) : HandlerResult :=
  if !isDirectMessage channel then
    { replies := ["this command is only accepted via direct message"], action := none }
  else
    match parseImageInput imgStr with
    | .error e => { replies := [e], action := none }
    | .ok fromL =>
      if fromL = [] then
        { replies := ["you must specify what will be tested"], action := none }
      else
        let replies1 :=
          if nameStr = "" then
            ["you must specify the name of a test: " ++ String.intercalate ", " (codeSlice sts)]
          else []
        let replies2 :=
          if contains sts nameStr then []
          else ["warning: You are using a custom test name, may not be supported for all platforms: " ++
            String.intercalate ", " (codeSlice sts)]
        match parseOptions sp sa spar optStr with
        | .error e => { replies := replies1 ++ replies2 ++ [e], action := none }
        | .ok (platform, architecture, params) =>
          let params := upsert params "test" nameStr
          if strContains ((lookupP params "test").getD "") "-upgrade" then
            { replies := replies1 ++ replies2 ++
                ["Upgrade type tests require the 'test upgrade' command"]
              action := none }
          else
            { replies := replies1 ++ replies2
              action := some (.launchJob
                { originalMessage := stripLinks text
                  user := user
                  inputs := [fromL]
                  type := .test
                  channel := channel
                  platform := platform
                  jobParams := params
                  architecture := architecture }) }

/-- Embedding of the `build` command handler (slack.go lines 288-330) up to
the `LaunchJobForUser` call. -/
def buildHandler (sp sa spar : List String)
    (user channel text prStr optStr : String) : HandlerResult :=
  if !isDirectMessage channel then
    { replies := ["this command is only accepted via direct message"], action := none }
  else
    match parseImageInput prStr with
    | .error e => { replies := [e], action := none }
    | .ok fromL =>
      if fromL = [] then
        { replies := ["you must specify at least one pull request to build a release image"]
          action := none }
      else
        match parseOptions sp sa spar optStr with
        | .error e => { replies := [e], action := none }
        | .ok (platform, architecture, params) =>
          { replies := []
            action := some (.launchJob
              { originalMessage := stripLinks text
                user := user
                inputs := [fromL]
                type := .build
                channel := channel
                platform := platform
                jobParams := params
                architecture := architecture }) }

/-- A workflow definition from the workflow configuration map (the
`Platform` and `Architecture` fields read by the handler). -/
structure Workflow where
  platform : String
  architecture : String
  deriving DecidableEq

/-- Workflow-configuration lookup (`b.workflowConfig.Workflows[name]`). -/
def lookupW : List (String × Workflow) → String → Option Workflow
  | [], _ => none
  | (k0, w0) :: rest, k => if k0 = k then some w0 else lookupW rest k

/-- Split on the literal three-character separator `","` used by the
workflow-launch parameter list (`strings.Split(params, "\",\"")`). -/
def splitQuoteComma : List Char → List (List Char)
  | [] => [[]]
  | '"' :: ',' :: '"' :: rest => [] :: splitQuoteComma rest
  | c :: rest =>
    match splitQuoteComma rest with
    | [] => [[c]]
    | y :: ys => (c :: y) :: ys

/-- Removal of one leading double quote (`strings.TrimPrefix(s, "\"")`). -/
def trimPrefixQuote : List Char → List Char
  | '"' :: rest => rest
  | s => s

/-- Removal of one trailing double quote (`strings.TrimSuffix(s, "\"")`). -/
def trimSuffixQuote (s : List Char) : List Char :=
  (trimPrefixQuote s.reverse).reverse

/-- Application of a function to the last element of a list
(`splitParams[len(splitParams)-1] = ...`). -/
def mapLast (f : List Char → List Char) : List (List Char) → List (List Char)
  | [] => []
  | [x] => [f x]
  | x :: xs => x :: mapLast f xs

/-- Embedding of the workflow-launch parameter parsing (slack.go lines
376-393): split on literal `","`, strip one quote from the first and last
pieces, then each piece must split on `=` into exactly two parts. -/
def parseWorkflowParams (params : String) : Except String (List (String × String)) :=
  let pieces :=
    if params = "" then []
    else
      mapLast trimSuffixQuote
        (match splitQuoteComma params.data with
          | [] => []
          | first :: rest => trimPrefixQuote first :: rest)
  pieces.foldlM
    (fun acc piece =>
      match splitOnChar '=' piece with
      | [k, v] => .ok (upsert acc (⟨k⟩ : String) (⟨v⟩ : String))
      | _ => .error ("Unable to interpret `" ++ (⟨piece⟩ : String) ++
          "` as a parameter. Please ensure that all paramters are in the form of KEY=VALUE"))
    []

/-- Embedding of the `workflow-launch` command handler (slack.go lines
332-412) up to the `LaunchJobForUser` call, with the workflow configuration
map passed explicitly. -/
def workflowLaunchHandler (sa sts : List String) (wfs : List (String × Workflow))
    (user channel text nameStr imgStr paramsStr : String) : HandlerResult :=
  if !isDirectMessage channel then
    { replies := ["this command is only accepted via direct message"], action := none }
  else
    match parseImageInput imgStr with
    | .error e => { replies := [e], action := none }
    | .ok fromL =>
      if fromL = [] then
        { replies := ["you must specify what will be tested"], action := none }
      else if nameStr = "" then
        { replies := ["you must specify the name of a workflow: " ++
            String.intercalate ", " (codeSlice sts)]
          action := none }
      else
        match lookupW wfs nameStr with
        | none =>
          { replies := ["Workflow " ++ nameStr ++ " not in workflow list. Please add " ++
              nameStr ++ " to the workflows list before retrying this command"]
            action := none }
        | some wf =>
          if wf.architecture ≠ "" ∧ !contains sa wf.architecture then
            { replies := ["Architecture " ++ wf.architecture ++ " not supported by cluster-bot"]
              action := none }
          else
            let architecture := if wf.architecture ≠ "" then wf.architecture else "amd64"
            match parseWorkflowParams paramsStr with
            | .error e => { replies := [e], action := none }
            | .ok jobParams =>
              { replies := []
                action := some (.launchJob
                  { originalMessage := stripLinks text
                    user := user
                    inputs := [fromL]
                    type := .workflowLaunch
                    channel := channel
                    platform := wf.platform
                    jobParams := jobParams
                    architecture := architecture
                    workflowName := nameStr }) }

theorem stripLinksL_no_lt {s : List Char} (h : '<' ∉ s) : stripLinksL s = s := by
  rw [stripLinksL_eq, splitFirst_eq_none h]
  rfl

/-- C5: `stripLinks` replaces every span of the form `<target|display>` by its
display text and every span `<target>` (no pipe before the closing `>`) by its
target, leaves all text outside matched spans untouched, passes an
unterminated span (a `<` with no later `>`) through verbatim, and is the
identity on every string containing no `<`. -/
theorem stripLinks_spec (pre t d rest u s : List Char) :
    ('<' ∉ pre → '>' ∉ t → '|' ∉ t → '>' ∉ d →
      stripLinksL (pre ++ '<' :: ((t ++ '|' :: d) ++ '>' :: rest)) =
        pre ++ d ++ stripLinksL rest)
    ∧ ('<' ∉ pre → '>' ∉ t → '|' ∉ t →
      stripLinksL (pre ++ '<' :: (t ++ '>' :: rest)) = pre ++ t ++ stripLinksL rest)
    ∧ ('<' ∉ pre → '>' ∉ u →
      stripLinksL (pre ++ '<' :: u) = pre ++ '<' :: u)
    ∧ ('<' ∉ s → stripLinksL s = s) := by
  refine ⟨?_, ?_, ?_, fun h => stripLinksL_no_lt h⟩
  · intro hpre ht hpt hd
    rw [stripLinksL_eq, splitFirst_append hpre]
    have hspan : '>' ∉ t ++ '|' :: d := by
      intro hmem
      rcases List.mem_append.mp hmem with h | h
      · exact ht h
      · rcases List.mem_cons.mp h with h | h
        · exact absurd h (by decide)
        · exact hd h
    rw [Option.elim_some, splitFirst_append hspan, Option.elim_some,
      splitFirst_append hpt, Option.elim_some]
  · intro hpre ht hpt
    rw [stripLinksL_eq, splitFirst_append hpre, Option.elim_some,
      splitFirst_append ht, Option.elim_some, splitFirst_eq_none hpt, Option.elim_none]
  · intro hpre hu
    rw [stripLinksL_eq, splitFirst_append hpre, Option.elim_some,
      splitFirst_eq_none hu, Option.elim_none]

/-- Witness for C5 at the concrete inputs of the specification examples. -/
theorem stripLinks_spec_witness :
    ('<' ∉ "no links".data ∧ stripLinksL "no links".data = "no links".data)
    ∧ stripLinks "<http://x|y> ok" = "y ok"
    ∧ stripLinks "<http://x> ok" = "http://x ok"
    ∧ stripLinks "<abc" = "<abc" :=
  ⟨⟨by decide, (stripLinks_spec [] [] [] [] [] "no links".data).2.2.2 (by decide)⟩,
    by decide, by decide, by decide⟩

/-- C7: `parseImageInput`, after trimming surrounding whitespace, returns an
empty list with no error for an empty or all-whitespace input; otherwise it
link-strips the text, splits on commas, fails with a descriptive error if any
resulting item is empty, and performs no other normalization (the successful
result is exactly the split of the link-stripped trimmed input). -/
theorem parseImageInput_spec (s : String) :
    (trimSpaceL s.data = [] → parseImageInput s = .ok [])
    ∧ (trimSpaceL s.data ≠ [] →
        (splitOnChar ',' (stripLinksL (trimSpaceL s.data))).any (fun p => p = []) = true →
        parseImageInput s = .error "image inputs must not contain empty items")
    ∧ (trimSpaceL s.data ≠ [] → ∀ l, parseImageInput s = .ok l →
        l.map String.data = splitOnChar ',' (stripLinksL (trimSpaceL s.data)) ∧
        ∀ x ∈ l, x ≠ "") := by
  refine ⟨fun h => ?_, fun h ha => ?_, fun h l hl => ?_⟩
  · simp [parseImageInput, h]
  · simp [parseImageInput, h, ha]
  · rw [parseImageInput] at hl
    simp only [h, if_false] at hl
    by_cases ha : (splitOnChar ',' (stripLinksL (trimSpaceL s.data))).any (fun p => p = []) = true
    · simp [ha] at hl
    · simp only [ha] at hl
      simp only [Bool.false_eq_true, if_false, Except.ok.injEq] at hl
      subst hl
      constructor
      · rw [List.map_map]
        have hc : (String.data ∘ fun p => (⟨p⟩ : String)) = id := rfl
        rw [hc, List.map_id]
      · intro x hx
        simp only [List.mem_map] at hx
        obtain ⟨p, hp, rfl⟩ := hx
        have hne : p ≠ [] := by
          intro hpe
          apply ha
          rw [List.any_eq_true]
          exact ⟨p, hp, by simp [hpe]⟩
        intro hxe
        apply hne
        have hdata : (⟨p⟩ : String).data = ("" : String).data := by rw [hxe]
        exact hdata

/-- Witness for C7 at the concrete inputs of the specification examples. -/
theorem parseImageInput_spec_witness :
    (trimSpaceL ("  " : String).data = [] ∧ parseImageInput "  " = .ok [])
    ∧ parseImageInput "" = .ok []
    ∧ parseImageInput "a,b" = .ok ["a", "b"]
    ∧ parseImageInput "a,,b" = .error "image inputs must not contain empty items" :=
  ⟨⟨by decide, (parseImageInput_spec "  ").1 (by decide)⟩, rfl, rfl, rfl⟩

/-- Continuation of the classification loop of `parseOptions` on a further
chunk of keys, starting from the state an earlier chunk produced. -/
def classifyStep (sp sa spar : List String) (ys : List (String × String))
    (res : Except String (String × String × List (String × String))) :
    Except String (String × String × List (String × String)) :=
  res.bind fun r =>
    (classifyOpts sp sa spar ys r.1 r.2.1).map fun r2 => (r2.1, r2.2.1, r.2.2 ++ r2.2.2)

theorem classifyOpts_append (sp sa spar : List String) :
    ∀ (xs ys : List (String × String)) (p a : String),
      classifyOpts sp sa spar (xs ++ ys) p a =
        classifyStep sp sa spar ys (classifyOpts sp sa spar xs p a) := by
  intro xs
  induction xs with
  | nil =>
    intro ys p a
    simp only [List.nil_append, classifyOpts, classifyStep, Except.bind]
    rcases h : classifyOpts sp sa spar ys p a with e | r
    · simp [Except.map]
    · simp [Except.map]
  | cons kv xs ih =>
    intro ys p a
    obtain ⟨k, v⟩ := kv
    simp only [List.cons_append, classifyOpts]
    split_ifs with h1 h2 h3 h4 h5
    · simp [classifyStep, Except.bind]
    · exact ih ys k a
    · simp [classifyStep, Except.bind]
    · exact ih ys p k
    · exact ih ys p a
    · simp only [List.append_eq]
      rw [ih ys p a]
      rcases hx : classifyOpts sp sa spar xs p a with e | r
      · simp [classifyStep, Except.bind, Except.map]
      · simp only [classifyStep, Except.bind, Except.map]
        rcases hy : classifyOpts sp sa spar ys r.1 r.2.1 with e2 | r2
        · simp
        · simp
    · simp [classifyStep, Except.bind]

/-- If the classification loop reports the duplicate-platform error, the key
list decomposes into a successfully classified prefix that already fixed a
platform, followed by a second key in the platform allow-list: the second
occurrence trips the error. -/
theorem classifyOpts_platform_error_decomp (sp sa spar : List String) :
    ∀ (l : List (String × String)) (p a : String),
      classifyOpts sp sa spar l p a = .error "you may only specify one platform in options" →
      ∃ pre k v rest p1 a1 ps1, l = pre ++ (k, v) :: rest ∧
        classifyOpts sp sa spar pre p a = .ok (p1, a1, ps1) ∧
        p1 ≠ "" ∧ contains sp k = true := by
  intro l
  induction l with
  | nil => intro p a h; simp [classifyOpts] at h
  | cons kv rest ih =>
    intro p a h
    obtain ⟨k, v⟩ := kv
    simp only [classifyOpts] at h
    split_ifs at h with h1 h2 h3 h4 h5 h6
    · exact ⟨[], k, v, rest, p, a, [], rfl, rfl, h2, h1⟩
    · obtain ⟨pre, k2, v2, rest2, p1, a1, ps1, he, hok, hp1, hk2⟩ := ih k a h
      refine ⟨(k, v) :: pre, k2, v2, rest2, p1, a1, ps1, by simp [he], ?_, hp1, hk2⟩
      simp [classifyOpts, h1, h2, hok]
    · simp at h
    · obtain ⟨pre, k2, v2, rest2, p1, a1, ps1, he, hok, hp1, hk2⟩ := ih p k h
      refine ⟨(k, v) :: pre, k2, v2, rest2, p1, a1, ps1, by simp [he], ?_, hp1, hk2⟩
      simp [classifyOpts, h1, h3, h4, hok]
    · subst h5
      obtain ⟨pre, k2, v2, rest2, p1, a1, ps1, he, hok, hp1, hk2⟩ := ih p a h
      refine ⟨("", v) :: pre, k2, v2, rest2, p1, a1, ps1, by simp [he], ?_, hp1, hk2⟩
      simp [classifyOpts, h1, h3, hok]
    · rcases hrec : classifyOpts sp sa spar rest p a with e | r
      · rw [hrec] at h
        simp only [Except.map] at h
        obtain rfl : e = "you may only specify one platform in options" := by
          injection h
        obtain ⟨pre, k2, v2, rest2, p1, a1, ps1, he, hok, hp1, hk2⟩ := ih p a hrec
        refine ⟨(k, v) :: pre, k2, v2, rest2, p1, a1, (k, v) :: ps1, by simp [he], ?_, hp1, hk2⟩
        simp [classifyOpts, h1, h3, h5, h6, hok, Except.map]
      · rw [hrec] at h
        simp [Except.map] at h
    · injection h with h
      have hchars := congrArg String.data h
      simp [String.append] at hchars

/-- Architecture analogue of `classifyOpts_platform_error_decomp`. -/
theorem classifyOpts_arch_error_decomp (sp sa spar : List String) :
    ∀ (l : List (String × String)) (p a : String),
      classifyOpts sp sa spar l p a = .error "you may only specify one architecture in options" →
      ∃ pre k v rest p1 a1 ps1, l = pre ++ (k, v) :: rest ∧
        classifyOpts sp sa spar pre p a = .ok (p1, a1, ps1) ∧
        a1 ≠ "" ∧ contains sp k = false ∧ contains sa k = true := by
  intro l
  induction l with
  | nil => intro p a h; simp [classifyOpts] at h
  | cons kv rest ih =>
    intro p a h
    obtain ⟨k, v⟩ := kv
    simp only [classifyOpts] at h
    split_ifs at h with h1 h2 h3 h4 h5 h6
    · simp at h
    · obtain ⟨pre, k2, v2, rest2, p1, a1, ps1, he, hok, ha1, hk2, hk3⟩ := ih k a h
      refine ⟨(k, v) :: pre, k2, v2, rest2, p1, a1, ps1, by simp [he], ?_, ha1, hk2, hk3⟩
      simp [classifyOpts, h1, h2, hok]
    · exact ⟨[], k, v, rest, p, a, [], rfl, rfl, h4, by simpa using h1, h3⟩
    · obtain ⟨pre, k2, v2, rest2, p1, a1, ps1, he, hok, ha1, hk2, hk3⟩ := ih p k h
      refine ⟨(k, v) :: pre, k2, v2, rest2, p1, a1, ps1, by simp [he], ?_, ha1, hk2, hk3⟩
      simp [classifyOpts, h1, h3, h4, hok]
    · subst h5
      obtain ⟨pre, k2, v2, rest2, p1, a1, ps1, he, hok, ha1, hk2, hk3⟩ := ih p a h
      refine ⟨("", v) :: pre, k2, v2, rest2, p1, a1, ps1, by simp [he], ?_, ha1, hk2, hk3⟩
      simp [classifyOpts, h1, h3, hok]
    · rcases hrec : classifyOpts sp sa spar rest p a with e | r
      · rw [hrec] at h
        simp only [Except.map] at h
        obtain rfl : e = "you may only specify one architecture in options" := by
          injection h
        obtain ⟨pre, k2, v2, rest2, p1, a1, ps1, he, hok, ha1, hk2, hk3⟩ := ih p a hrec
        refine ⟨(k, v) :: pre, k2, v2, rest2, p1, a1, (k, v) :: ps1, by simp [he], ?_, ha1, hk2, hk3⟩
        simp [classifyOpts, h1, h3, h5, h6, hok, Except.map]
      · rw [hrec] at h
        simp [Except.map] at h
    · injection h with h
      have hchars := congrArg String.data h
      simp [String.append] at hchars

/-- C3: `parseOptions` fails with the single-platform (respectively
single-architecture) error exactly when a second distinct key matching the
platform (respectively architecture) allow-list is classified — the second
occurrence, reached after a prefix that already fixed the value, trips the
error rather than silently overwriting the first — and any key matching none
of the three allow-lists (and not the empty string) is a hard failure naming
the unrecognized option. -/
theorem parseOptions_second_occurrence_errors
    (sp sa spar : List String) (pre rest : List (String × String)) (k v : String) :
    (∀ p1 a1 ps1, classifyOpts sp sa spar pre "" "" = .ok (p1, a1, ps1) → p1 ≠ "" →
      contains sp k = true →
      classifyOpts sp sa spar (pre ++ (k, v) :: rest) "" "" =
        .error "you may only specify one platform in options")
    ∧ (∀ p1 a1 ps1, classifyOpts sp sa spar pre "" "" = .ok (p1, a1, ps1) → a1 ≠ "" →
      contains sp k = false → contains sa k = true →
      classifyOpts sp sa spar (pre ++ (k, v) :: rest) "" "" =
        .error "you may only specify one architecture in options")
    ∧ (∀ p1 a1 ps1, classifyOpts sp sa spar pre "" "" = .ok (p1, a1, ps1) →
      contains sp k = false → contains sa k = false → k ≠ "" → contains spar k = false →
      classifyOpts sp sa spar (pre ++ (k, v) :: rest) "" "" =
        .error ("unrecognized option: " ++ k))
    ∧ (∀ l, classifyOpts sp sa spar l "" "" =
          .error "you may only specify one platform in options" →
        ∃ pre2 k2 v2 rest2 p1 a1 ps1, l = pre2 ++ (k2, v2) :: rest2 ∧
          classifyOpts sp sa spar pre2 "" "" = .ok (p1, a1, ps1) ∧
          p1 ≠ "" ∧ contains sp k2 = true)
    ∧ (∀ l, classifyOpts sp sa spar l "" "" =
          .error "you may only specify one architecture in options" →
        ∃ pre2 k2 v2 rest2 p1 a1 ps1, l = pre2 ++ (k2, v2) :: rest2 ∧
          classifyOpts sp sa spar pre2 "" "" = .ok (p1, a1, ps1) ∧
          a1 ≠ "" ∧ contains sp k2 = false ∧ contains sa k2 = true) := by
  refine ⟨fun p1 a1 ps1 hok hp1 hk => ?_, fun p1 a1 ps1 hok ha1 hk1 hk2 => ?_,
    fun p1 a1 ps1 hok hk1 hk2 hk3 hk4 => ?_,
    fun l h => classifyOpts_platform_error_decomp sp sa spar l "" "" h,
    fun l h => classifyOpts_arch_error_decomp sp sa spar l "" "" h⟩
  · rw [classifyOpts_append, hok]
    simp [classifyStep, Except.bind, classifyOpts, hk, hp1, Except.map]
  · rw [classifyOpts_append, hok]
    simp [classifyStep, Except.bind, classifyOpts, hk1, hk2, ha1, Except.map]
  · rw [classifyOpts_append, hok]
    simp [classifyStep, Except.bind, classifyOpts, hk1, hk2, hk3, hk4, Except.map]

/-- Witness for C3: the specification examples `parseOptions("gcp,aws")`
(two platforms) and `parseOptions("bogus")` (no allow-list contains the key),
with the second-occurrence part applied at the concrete prefix `[("gcp","")]`. -/
theorem parseOptions_second_occurrence_errors_witness :
    (classifyOpts ["aws", "gcp", "azure"] ["arm64"] ["test"] [("gcp", "")] "" "" =
        .ok ("gcp", "", []) ∧ ("gcp" : String) ≠ "" ∧
      contains ["aws", "gcp", "azure"] "aws" = true ∧
      classifyOpts ["aws", "gcp", "azure"] ["arm64"] ["test"] ([("gcp", "")] ++ [("aws", "")]) "" "" =
        .error "you may only specify one platform in options")
    ∧ parseOptions ["aws", "gcp", "azure"] ["arm64"] ["test"] "gcp,aws" =
        .error "you may only specify one platform in options"
    ∧ parseOptions ["aws", "gcp", "azure"] ["arm64"] ["test"] "bogus" =
        .error "unrecognized option: bogus" :=
  ⟨⟨rfl, by decide, rfl,
      (parseOptions_second_occurrence_errors ["aws", "gcp", "azure"] ["arm64"] ["test"]
        [("gcp", "")] [] "aws" "").1 "gcp" "" [] rfl (by decide) rfl⟩,
    rfl, rfl⟩

/-- Keys surviving classification belong to no platform or architecture
allow-list and are never the empty string. -/
theorem classifyOpts_ok_keys (sp sa spar : List String) :
    ∀ (l : List (String × String)) (p a : String) r,
      classifyOpts sp sa spar l p a = .ok r →
      ∀ kv ∈ r.2.2, contains sp kv.1 = false ∧ contains sa kv.1 = false ∧ kv.1 ≠ "" := by
  intro l
  induction l with
  | nil =>
    intro p a r h kv hkv
    simp only [classifyOpts, Except.ok.injEq] at h
    subst h
    simp at hkv
  | cons kv0 rest ih =>
    intro p a r h kv hkv
    obtain ⟨k, v⟩ := kv0
    simp only [classifyOpts] at h
    split_ifs at h with h1 h2 h3 h4 h5 h6
    · exact ih k a r h kv hkv
    · exact ih p k r h kv hkv
    · exact ih p a r h kv hkv
    · rcases hrec : classifyOpts sp sa spar rest p a with e | r0
      · rw [hrec] at h
        simp [Except.map] at h
      · rw [hrec] at h
        simp only [Except.map, Except.ok.injEq] at h
        subst h
        rcases List.mem_cons.mp hkv with h7 | h7
        · subst h7
          exact ⟨by simpa using h1, by simpa using h3, h5⟩
        · exact ih p a r0 hrec kv h7

/-- When no key matches the platform allow-list, the classification loop
leaves the platform state unchanged. -/
theorem classifyOpts_no_platform (sp sa spar : List String) :
    ∀ (l : List (String × String)) (p a : String) r,
      (∀ kv ∈ l, contains sp kv.1 = false) →
      classifyOpts sp sa spar l p a = .ok r → r.1 = p := by
  intro l
  induction l with
  | nil =>
    intro p a r _ h
    simp only [classifyOpts, Except.ok.injEq] at h
    subst h
    rfl
  | cons kv0 rest ih =>
    intro p a r hnone h
    obtain ⟨k, v⟩ := kv0
    have hk : contains sp k = false := hnone (k, v) (List.mem_cons_self _ _)
    have hrest : ∀ kv ∈ rest, contains sp kv.1 = false :=
      fun kv hkv => hnone kv (List.mem_cons_of_mem _ hkv)
    simp only [classifyOpts, hk, Bool.false_eq_true, if_false] at h
    split_ifs at h with h1 h2 h3 h4
    · exact ih p k r hrest h
    · exact ih p a r hrest h
    · rcases hrec : classifyOpts sp sa spar rest p a with e | r0
      · rw [hrec] at h
        simp [Except.map] at h
      · rw [hrec] at h
        simp only [Except.map, Except.ok.injEq] at h
        subst h
        exact ih p a r0 hrest hrec

/-- When no key matches the architecture allow-list, the classification loop
leaves the architecture state unchanged. -/
theorem classifyOpts_no_arch (sp sa spar : List String) :
    ∀ (l : List (String × String)) (p a : String) r,
      (∀ kv ∈ l, contains sa kv.1 = false) →
      classifyOpts sp sa spar l p a = .ok r → r.2.1 = a := by
  intro l
  induction l with
  | nil =>
    intro p a r _ h
    simp only [classifyOpts, Except.ok.injEq] at h
    subst h
    rfl
  | cons kv0 rest ih =>
    intro p a r hnone h
    obtain ⟨k, v⟩ := kv0
    have hk : contains sa k = false := hnone (k, v) (List.mem_cons_self _ _)
    have hrest : ∀ kv ∈ rest, contains sa kv.1 = false :=
      fun kv hkv => hnone kv (List.mem_cons_of_mem _ hkv)
    simp only [classifyOpts, hk, Bool.false_eq_true, if_false] at h
    split_ifs at h with h1 h2 h3 h4
    · exact ih k a r hrest h
    · exact ih p a r hrest h
    · rcases hrec : classifyOpts sp sa spar rest p a with e | r0
      · rw [hrec] at h
        simp [Except.map] at h
      · rw [hrec] at h
        simp only [Except.map, Except.ok.injEq] at h
        subst h
        exact ih p a r0 hrest hrec

/-- C4: whenever `parseOptions` succeeds, the returned parameter mapping
contains no key of the platform or architecture allow-lists and no
empty-string key, and the returned platform and architecture are the fixed
defaults `gcp` and `amd64` when no key of the respective allow-list was
supplied. -/
theorem parseOptions_result_invariant (sp sa spar : List String) (s : String)
    (p a : String) (ps : List (String × String))
    (h : parseOptions sp sa spar s = .ok (p, a, ps)) :
    (∀ kv ∈ ps, contains sp kv.1 = false ∧ contains sa kv.1 = false ∧ kv.1 ≠ "")
    ∧ ((∀ kv ∈ paramsFromAnnotation s, contains sp kv.1 = false) → p = "gcp")
    ∧ ((∀ kv ∈ paramsFromAnnotation s, contains sa kv.1 = false) → a = "amd64") := by
  simp only [parseOptions] at h
  rcases hc : classifyOpts sp sa spar ( paramsFromAnnotation s) "" "" with e | r
  · rw [hc] at h
    simp [Except.map] at h
  · rw [hc] at h
    simp only [Except.map, Except.ok.injEq, Prod.mk.injEq] at h
    obtain ⟨hp, ha, hps⟩ := h
    refine ⟨?_, ?_, ?_⟩
    · intro kv hkv
      exact classifyOpts_ok_keys sp sa spar _ "" "" r hc kv (by rw [hps]; exact hkv)
    · intro hnone
      have h0 : r.1 = "" := classifyOpts_no_platform sp sa spar _ "" "" r hnone hc
      rw [← hp, h0]
      rfl
    · intro hnone
      have h0 : r.2.1 = "" := classifyOpts_no_arch sp sa spar _ "" "" r hnone hc
      rw [← ha, h0]
      rfl

/-- Witness for C4 at the specification examples `parseOptions("gcp,test=e2e")`
and `parseOptions("")`. -/
theorem parseOptions_result_invariant_witness :
    parseOptions ["aws", "gcp"] ["arm64"] ["test"] "gcp,test=e2e" =
        .ok ("gcp", "amd64", [("test", "e2e")])
    ∧ parseOptions ["aws", "gcp"] ["arm64"] ["test"] "" = .ok ("gcp", "amd64", [])
    ∧ ((∀ kv ∈ [("test", "e2e")], contains ["aws", "gcp"] kv.1 = false ∧
          contains ["arm64"] kv.1 = false ∧ kv.1 ≠ "")
        ∧ ((∀ kv ∈ paramsFromAnnotation "gcp,test=e2e", contains ["aws", "gcp"] kv.1 = false) →
          ("gcp" : String) = "gcp")
        ∧ ((∀ kv ∈ paramsFromAnnotation "gcp,test=e2e", contains ["arm64"] kv.1 = false) →
          ("amd64" : String) = "amd64")) :=
  ⟨rfl, rfl,
    parseOptions_result_invariant ["aws", "gcp"] ["arm64"] ["test"] "gcp,test=e2e"
      "gcp" "amd64" [("test", "e2e")] rfl⟩

/-- C10: for every job delivered on the notification feed, the responder
emits no message exactly when the job has an empty requested channel or
empty requesting user, when a launch-mode job has both empty credentials and
empty failure, or when a non-launch-mode job has both an empty URL and an
empty failure; every other job reaches the `notifyJob` formatter. -/
theorem jobResponder_spec (job : Job) (now : Int) :
    (jobResponder job now = none ↔
      job.requestedChannel = "" ∨ job.requestedBy = "" ∨
      (isLaunchMode job.mode = true ∧ job.credentials = "" ∧ job.failure = "") ∨
      (isLaunchMode job.mode = false ∧ job.url = "" ∧ job.failure = ""))
    ∧ (∀ r, jobResponder job now = some r → r = notifyJob job now) := by
  constructor
  · by_cases h1 : job.requestedChannel = "" ∨ job.requestedBy = ""
    · simp only [jobResponder, if_pos h1]
      simp only [true_iff]
      tauto
    · obtain ⟨h1a, h1b⟩ := not_or.mp h1
      cases hM : isLaunchMode job.mode
      · by_cases h2 : job.url = "" ∧ job.failure = ""
        · simp [jobResponder, hM, h1, h1a, h1b, h2.1, h2.2]
        · simp [jobResponder, hM, h1, h1a, h1b, h2]
      · by_cases h2 : job.credentials = "" ∧ job.failure = ""
        · simp [jobResponder, hM, h1, h1a, h1b, h2.1, h2.2]
        · simp [jobResponder, hM, h1, h1a, h1b, h2]
  · intro r hr
    unfold jobResponder at hr
    split_ifs at hr
    all_goals
      first
        | exact Option.noConfusion hr
        | (injection hr with hr; exact hr.symm)

/-- Concrete job dropped by the responder: launch mode with neither
credentials nor failure. -/
def jobC10drop : Job :=
  { name := "j", mode := .launch, state := .pending, url := "", credentials := "",
    failure := "", passwordSnippet := "", requestedBy := "u", requestedChannel := "D9",
    originalMessage := "m", requestedAt := 0, expiresAt := 0, legacyConfig := false }

/-- Concrete job passed through by the responder: launch mode with a failure. -/
def jobC10go : Job :=
  { name := "j", mode := .launch, state := .pending, url := "", credentials := "",
    failure := "boom", passwordSnippet := "", requestedBy := "u", requestedChannel := "D9",
    originalMessage := "m", requestedAt := 0, expiresAt := 0, legacyConfig := false }

/-- Witness for C10: one concretely dropped job and one concretely delivered
job. -/
theorem jobResponder_spec_witness :
    jobResponder jobC10drop 0 = none ∧ jobResponder jobC10go 0 = some (notifyJob jobC10go 0) :=
  ⟨(jobResponder_spec jobC10drop 0).1.mpr (Or.inr (Or.inr (Or.inl ⟨rfl, rfl, rfl⟩))), rfl⟩

/-- C1 (amended): a non-launch-mode job in a terminal state with no report
URL does not fall through to the running/progress rendering: it is reported
with the corresponding no-details terminal message ("job X failed, but no
details could be retrieved" for failure/aborted/error, "job X succeded, but
no details could be retrieved" for success, spelling as in the code). -/
theorem notifyJob_terminal_no_url (job : Job) (now : Int)
    (hm : isLaunchMode job.mode = false) (hu : job.url = "")
    (ht : isFailedState job.state = true ∨ job.state = .success) :
    notifyJob job now =
      { replies := [if job.state = .success
          then "job " ++ job.originalMessage ++ " succeded, but no details could be retrieved"
          else "job " ++ job.originalMessage ++ " failed, but no details could be retrieved"]
        attachment := none } := by
  rcases ht with ht | ht
  · have hns : ¬job.state = .success := by
      intro hs
      rw [hs] at ht
      exact absurd ht (by decide)
    simp [notifyJob, hm, hu, ht, hns]
  · have hnf : isFailedState job.state = false := by rw [ht]; rfl
    simp [notifyJob, hm, hu, ht, isFailedState]

/-- Concrete non-launch job with terminal state and no URL. -/
def jobC1 : Job :=
  { name := "j", mode := .test, state := .failure, url := "", credentials := "",
    failure := "", passwordSnippet := "", requestedBy := "u", requestedChannel := "D1",
    originalMessage := "test e2e", requestedAt := 0, expiresAt := 0, legacyConfig := false }

/-- Counterexample for C1 as stated: at a failed test job with no URL and no
credentials, requested 5 minutes ago, `notifyJob` renders the no-details
terminal failure message, not the elapsed-minutes running message the claim
asserts. -/
theorem notifyJob_terminal_no_url_cex :
    notifyJob jobC1 300000000000 =
      { replies := ["job test e2e failed, but no details could be retrieved"]
        attachment := none }
    ∧ notifyJob jobC1 300000000000 ≠
      { replies := ["job is running (launched 5 minutes ago)"], attachment := none } :=
  ⟨rfl, by decide⟩

/-- Witness for C1 (amended) at the concrete job `jobC1`. -/
theorem notifyJob_terminal_no_url_witness :
    isLaunchMode jobC1.mode = false ∧ jobC1.url = "" ∧
    (isFailedState jobC1.state = true ∨ jobC1.state = .success) ∧
    notifyJob jobC1 0 =
      { replies := ["job test e2e failed, but no details could be retrieved"]
        attachment := none } :=
  ⟨rfl, rfl, Or.inl rfl, notifyJob_terminal_no_url jobC1 0 rfl rfl (Or.inl rfl)⟩

/-- C2 (amended): for every launch-mode job with non-empty credentials and
empty failure reason, `notifyJob` produces the ready message whose minute
count is `(ExpiresAt - now) / minute` in Go integer division (truncation
toward zero, which is `floor` whenever the expiry is not in the past),
appends the password hint when present, and triggers the credentials
file-attachment side effect exactly once, with a filename derived
deterministically from the `RequestedAt` timestamp. -/
theorem notifyJob_ready (job : Job) (now : Int)
    (hm : isLaunchMode job.mode = true)
    (hc : job.credentials ≠ "") (hf : job.failure = "") :
    notifyJob job now =
      { replies := if job.legacyConfig then [legacyWarning] else []
        attachment := some (sendKubeconfig job.requestedChannel job.credentials
          (if job.passwordSnippet ≠ "" then
            "Your cluster is ready, it will be shut down automatically in ~" ++
              toString (Int.tdiv (job.expiresAt - now) nsPerMinute) ++ " minutes." ++
              "\n" ++ job.passwordSnippet
          else
            "Your cluster is ready, it will be shut down automatically in ~" ++
              toString (Int.tdiv (job.expiresAt - now) nsPerMinute) ++ " minutes.")
          (formatTimestamp job.requestedAt)) } := by
  simp [notifyJob, hm, hf, hc]

/-- Concrete launch job with credentials and a failure reason both set. -/
def jobC2fail : Job :=
  { name := "j", mode := .launch, state := .pending, url := "", credentials := "kubeconfig",
    failure := "boom", passwordSnippet := "", requestedBy := "u", requestedChannel := "D1",
    originalMessage := "launch", requestedAt := 0, expiresAt := 3600000000000,
    legacyConfig := false }

/-- Concrete launch job with credentials, no failure, and an expiry 90
seconds in the past. -/
def jobC2exp : Job :=
  { name := "j", mode := .launch, state := .pending, url := "", credentials := "kubeconfig",
    failure := "", passwordSnippet := "", requestedBy := "u", requestedChannel := "D1",
    originalMessage := "launch", requestedAt := 0, expiresAt := -90000000000,
    legacyConfig := false }

/-- Counterexample for C2 as stated: a launch-mode job with non-empty
credentials but a failure reason renders the failure message with no
attachment at all, and a launch-mode job whose expiry lies 90 seconds in the
past renders minute count `-1` (truncation toward zero) where
`floor((ExpiresAt - now)/minute)` is `-2`. -/
theorem notifyJob_ready_cex :
    ((notifyJob jobC2fail 0).attachment = none ∧
      (notifyJob jobC2fail 0).replies = ["your cluster failed to launch: boom"])
    ∧ ((notifyJob jobC2exp 0).attachment.map Attachment.initialComment =
        some "Your cluster is ready, it will be shut down automatically in ~-1 minutes." ∧
      Int.fdiv (jobC2exp.expiresAt - 0) nsPerMinute = -2 ∧
      "Your cluster is ready, it will be shut down automatically in ~" ++
          toString (Int.fdiv (jobC2exp.expiresAt - 0) nsPerMinute) ++ " minutes." ≠
        "Your cluster is ready, it will be shut down automatically in ~-1 minutes.") :=
  ⟨⟨rfl, rfl⟩, rfl, by decide, by decide⟩

/-- Concrete launch job with credentials, no failure, a password hint and an
hour until expiry. -/
def jobC2ok : Job :=
  { name := "j", mode := .launch, state := .pending, url := "", credentials := "kc",
    failure := "", passwordSnippet := "pw-hint", requestedBy := "u", requestedChannel := "D2",
    originalMessage := "launch", requestedAt := 0, expiresAt := 3600000000000,
    legacyConfig := false }

/-- Witness for C2 (amended) at the concrete job `jobC2ok`. -/
theorem notifyJob_ready_witness :
    isLaunchMode jobC2ok.mode = true ∧ jobC2ok.credentials ≠ "" ∧ jobC2ok.failure = "" ∧
    notifyJob jobC2ok 0 =
      { replies := []
        attachment := some
          { content := "kc", channels := ["D2"],
            filename := "cluster-bot-1970-01-01-000000.kubeconfig", filetype := "text",
            initialComment :=
              "Your cluster is ready, it will be shut down automatically in ~60 minutes.\npw-hint" } } :=
  ⟨rfl, by decide, rfl, notifyJob_ready jobC2ok 0 rfl (by decide) rfl⟩

theorem lookupP_upsert (l : List (String × String)) (k v : String) :
    lookupP (upsert l k v) k = some v := by
  induction l with
  | nil => simp [upsert, lookupP]
  | cons kv0 rest ih =>
    obtain ⟨k0, v0⟩ := kv0
    by_cases h : k0 = k
    · simp [upsert, h, lookupP]
    · simp [upsert, h, lookupP, ih]

/-- C8: every job-affecting command handler (launch, refresh, done, auth,
test upgrade, test, build, workflow-launch) first checks that the requesting
channel is a direct-message channel; when it is not, the handler replies
with its direct-message-only error and makes no job-manager call, whatever
the other inputs are. -/
theorem handlers_require_direct_message
    (sp sa spar sts : List String) (wfs : List (String × Workflow))
    (user channel text a1 a2 a3 : String)
    (h : isDirectMessage channel = false) :
    launchHandler sp sa spar user channel text a1 a2 =
      { replies := ["this command is only accepted via direct message"], action := none }
    ∧ refreshHandler user channel =
      { replies := ["you must direct message me this request"], action := none }
    ∧ doneHandler user channel =
      { replies := ["you must direct message me this request"], action := none }
    ∧ authHandler user channel =
      { replies := ["you must direct message me this request"], action := none }
    ∧ testUpgradeHandler sp sa spar user channel text a1 a2 a3 =
      { replies := ["this command is only accepted via direct message"], action := none }
    ∧ testHandler sts sp sa spar user channel text a1 a2 a3 =
      { replies := ["this command is only accepted via direct message"], action := none }
    ∧ buildHandler sp sa spar user channel text a1 a2 =
      { replies := ["this command is only accepted via direct message"], action := none }
    ∧ workflowLaunchHandler sa sts wfs user channel text a1 a2 a3 =
      { replies := ["this command is only accepted via direct message"], action := none } := by
  refine ⟨?_, ?_, ?_, ?_, ?_, ?_, ?_, ?_⟩ <;>
    simp [launchHandler, refreshHandler, doneHandler, authHandler, testUpgradeHandler,
      testHandler, buildHandler, workflowLaunchHandler, h]

/-- Witness for C8 at the non-direct-message channel `C123`. -/
theorem handlers_require_direct_message_witness :
    isDirectMessage "C123" = false ∧
    (launchHandler [] [] [] "U1" "C123" "t" "x" "y" =
      { replies := ["this command is only accepted via direct message"], action := none }
    ∧ refreshHandler "U1" "C123" =
      { replies := ["you must direct message me this request"], action := none }
    ∧ doneHandler "U1" "C123" =
      { replies := ["you must direct message me this request"], action := none }
    ∧ authHandler "U1" "C123" =
      { replies := ["you must direct message me this request"], action := none }
    ∧ testUpgradeHandler [] [] [] "U1" "C123" "t" "x" "y" "z" =
      { replies := ["this command is only accepted via direct message"], action := none }
    ∧ testHandler [] [] [] [] "U1" "C123" "t" "x" "y" "z" =
      { replies := ["this command is only accepted via direct message"], action := none }
    ∧ buildHandler [] [] [] "U1" "C123" "t" "x" "y" =
      { replies := ["this command is only accepted via direct message"], action := none }
    ∧ workflowLaunchHandler [] [] [] "U1" "C123" "t" "x" "y" "z" =
      { replies := ["this command is only accepted via direct message"], action := none }) :=
  ⟨rfl, handlers_require_direct_message [] [] [] [] [] "U1" "C123" "t" "x" "y" "z" rfl⟩

/-- C9: when the test command is invoked with an empty test-suite name (and
the other inputs parse), the handler replies with the must-specify message
and the custom-name warning but does not return: it stores the empty string
under the `test` parameter and still issues the `LaunchJobForUser` call. -/
theorem testHandler_empty_name_still_launches
    (sts sp sa spar : List String) (user channel text imgStr optStr : String)
    (fromL : List String) (p a : String) (params : List (String × String))
    (hch : isDirectMessage channel = true)
    (himg : parseImageInput imgStr = .ok fromL) (hne : fromL ≠ [])
    (hopt : parseOptions sp sa spar optStr = .ok (p, a, params))
    (hsts : contains sts "" = false) :
    testHandler sts sp sa spar user channel text "" imgStr optStr =
      { replies := ["you must specify the name of a test: " ++
            String.intercalate ", " (codeSlice sts),
          "warning: You are using a custom test name, may not be supported for all platforms: " ++
            String.intercalate ", " (codeSlice sts)]
        action := some (.launchJob
          { originalMessage := stripLinks text
            user := user
            inputs := [fromL]
            type := .test
            channel := channel
            platform := p
            jobParams := upsert params "test" ""
            architecture := a }) } := by
  have hlk : lookupP (upsert params "test" "") "test" = some "" := lookupP_upsert params _ _
  have hsc : strContains "" "-upgrade" = false := rfl
  simp [testHandler, hch, himg, hne, hopt, hsts, hlk, hsc]

/-- Witness for C9 at a concrete empty-name invocation. -/
theorem testHandler_empty_name_still_launches_witness :
    isDirectMessage "D5" = true ∧
    parseImageInput "4.10" = .ok ["4.10"] ∧ (["4.10"] : List String) ≠ [] ∧
    parseOptions ["aws", "gcp"] ["arm64"] ["test"] "" = .ok ("gcp", "amd64", []) ∧
    contains ["e2e"] "" = false ∧
    testHandler ["e2e"] ["aws", "gcp"] ["arm64"] ["test"] "U" "D5" "test" "" "4.10" "" =
      { replies := ["you must specify the name of a test: `e2e`",
          "warning: You are using a custom test name, may not be supported for all platforms: `e2e`"]
        action := some (.launchJob
          { originalMessage := "test", user := "U", inputs := [["4.10"]], type := .test,
            channel := "D5", platform := "gcp", jobParams := [("test", "")],
            architecture := "amd64" }) } :=
  ⟨rfl, rfl, by decide, rfl, rfl,
    testHandler_empty_name_still_launches ["e2e"] ["aws", "gcp"] ["arm64"] ["test"]
      "U" "D5" "test" "4.10" "" ["4.10"] "gcp" "amd64" [] rfl rfl (by decide) rfl rfl⟩

/-- The tail of the `test upgrade` handler once the direct-message check and
the three parses have gone through: the `test` default, the `-upgrade`
check, and the launched request. -/
theorem testUpgradeHandler_eq (sp sa spar : List String)
    (user channel text fromStr toStr optStr : String)
    (fromL toL : List String) (p a : String) (params : List (String × String))
    (hch : isDirectMessage channel = true)
    (hf : parseImageInput fromStr = .ok fromL) (hne : fromL ≠ [])
    (hto : parseImageInput toStr = .ok toL)
    (hopt : parseOptions sp sa spar optStr = .ok (p, a, params)) :
    testUpgradeHandler sp sa spar user channel text fromStr toStr optStr =
      (if !strContains
          ((lookupP (if (lookupP params "test").getD "" = ""
              then upsert params "test" "e2e-upgrade" else params) "test").getD "")
          "-upgrade" then
        { replies := ["Only upgrade type tests may be run from this command"], action := none }
      else
        { replies := []
          action := some (.launchJob
            { originalMessage := stripLinks text, user := user,
              inputs := [fromL, if toL = [] then fromL else toL], type := .upgrade,
              channel := channel, platform := p,
              jobParams := if (lookupP params "test").getD "" = ""
                then upsert params "test" "e2e-upgrade" else params
              architecture := a }) }) := by
  simp [testUpgradeHandler, hch, hf, hne, hto, hopt]

/-- C6: the upgrade command defaults its `to` input list to the `from` list
when `to` is empty, defaults the `test` parameter to the fixed suite
`e2e-upgrade` when absent or empty, rejects the request when the resolved
`test` value does not contain `-upgrade`; and the generic test command
rejects any suite name that, placed under key `test`, contains the substring
`-upgrade`. -/
theorem upgrade_and_test_suite_rules (sp sa spar sts : List String)
    (user channel text fromStr toStr optStr nameStr imgStr : String) :
    (∀ fromL toL rs req,
      isDirectMessage channel = true →
      parseImageInput fromStr = .ok fromL → fromL ≠ [] →
      parseImageInput toStr = .ok toL → toL = [] →
      testUpgradeHandler sp sa spar user channel text fromStr toStr optStr =
        { replies := rs, action := some (.launchJob req) } →
      req.inputs = [fromL, fromL])
    ∧ (∀ fromL toL p a params,
      isDirectMessage channel = true →
      parseImageInput fromStr = .ok fromL → fromL ≠ [] →
      parseImageInput toStr = .ok toL →
      parseOptions sp sa spar optStr = .ok (p, a, params) →
      (lookupP params "test").getD "" = "" →
      testUpgradeHandler sp sa spar user channel text fromStr toStr optStr =
        { replies := []
          action := some (.launchJob
            { originalMessage := stripLinks text, user := user,
              inputs := [fromL, if toL = [] then fromL else toL], type := .upgrade,
              channel := channel, platform := p,
              jobParams := upsert params "test" "e2e-upgrade", architecture := a }) })
    ∧ (∀ fromL toL p a params t,
      isDirectMessage channel = true →
      parseImageInput fromStr = .ok fromL → fromL ≠ [] →
      parseImageInput toStr = .ok toL →
      parseOptions sp sa spar optStr = .ok (p, a, params) →
      lookupP params "test" = some t → t ≠ "" → strContains t "-upgrade" = false →
      testUpgradeHandler sp sa spar user channel text fromStr toStr optStr =
        { replies := ["Only upgrade type tests may be run from this command"], action := none })
    ∧ (∀ fromL p a params,
      isDirectMessage channel = true →
      parseImageInput imgStr = .ok fromL → fromL ≠ [] →
      parseOptions sp sa spar optStr = .ok (p, a, params) →
      strContains nameStr "-upgrade" = true →
      testHandler sts sp sa spar user channel text nameStr imgStr optStr =
        { replies :=
            (if contains sts nameStr then []
             else ["warning: You are using a custom test name, may not be supported for all platforms: " ++
               String.intercalate ", " (codeSlice sts)]) ++
            ["Upgrade type tests require the 'test upgrade' command"]
          action := none }) := by
  refine ⟨?_, ?_, ?_, ?_⟩
  · intro fromL toL rs req hch hf hne hto htoEmpty hrun
    subst htoEmpty
    rcases hopt : parseOptions sp sa spar optStr with e | r
    · simp [testUpgradeHandler, hch, hf, hne, hto, hopt] at hrun
    · obtain ⟨p, a, params⟩ := r
      rw [testUpgradeHandler_eq sp sa spar user channel text fromStr toStr optStr
        fromL [] p a params hch hf hne hto hopt] at hrun
      by_cases hcont : strContains
          ((lookupP (if (lookupP params "test").getD "" = ""
              then upsert params "test" "e2e-upgrade" else params) "test").getD "")
          "-upgrade" = true
      · simp only [hcont, Bool.not_true, Bool.false_eq_true, if_false,
          HandlerResult.mk.injEq, Option.some.injEq] at hrun
        obtain ⟨-, hact⟩ := hrun
        injection hact with hact
        rw [← hact]
        simp
      · simp only [Bool.not_eq_true] at hcont
        simp [hcont] at hrun
  · intro fromL toL p a params hch hf hne hto hopt htest
    rw [testUpgradeHandler_eq sp sa spar user channel text fromStr toStr optStr
      fromL toL p a params hch hf hne hto hopt]
    have hlk : lookupP (upsert params "test" "e2e-upgrade") "test" = some "e2e-upgrade" :=
      lookupP_upsert params _ _
    have hsc : strContains "e2e-upgrade" "-upgrade" = true := rfl
    simp [htest, hlk, hsc]
  · intro fromL toL p a params t hch hf hne hto hopt hlk ht hcont
    rw [testUpgradeHandler_eq sp sa spar user channel text fromStr toStr optStr
      fromL toL p a params hch hf hne hto hopt]
    simp [hlk, ht, hcont]
  · intro fromL p a params hch hf hne hopt hcont
    have hnn : ¬nameStr = "" := by
      intro he
      subst he
      exact absurd hcont (by decide)
    have hlk : lookupP (upsert params "test" nameStr) "test" = some nameStr :=
      lookupP_upsert params _ _
    simp [testHandler, hch, hf, hne, hopt, hnn, hlk, hcont]

/-- Witness for C6 at concrete upgrade and test invocations. -/
theorem upgrade_and_test_suite_rules_witness :
    isDirectMessage "D7" = true ∧
    parseImageInput "4.1" = .ok ["4.1"] ∧
    parseImageInput "" = .ok [] ∧
    parseOptions ["aws", "gcp"] ["arm64"] ["test"] "" = .ok ("gcp", "amd64", []) ∧
    strContains "e2e-upgrade" "-upgrade" = true ∧
    testUpgradeHandler ["aws", "gcp"] ["arm64"] ["test"] "U" "D7" "up" "4.1" "" "" =
      { replies := []
        action := some (.launchJob
          { originalMessage := "up", user := "U", inputs := [["4.1"], ["4.1"]],
            type := .upgrade, channel := "D7", platform := "gcp",
            jobParams := [("test", "e2e-upgrade")], architecture := "amd64" }) } ∧
    testHandler ["e2e"] ["aws", "gcp"] ["arm64"] ["test"] "U" "D7" "up" "e2e-upgrade" "4.1" "" =
      { replies :=
          ["warning: You are using a custom test name, may not be supported for all platforms: `e2e`",
            "Upgrade type tests require the 'test upgrade' command"]
        action := none } :=
  ⟨rfl, rfl, rfl, rfl, rfl,
    (upgrade_and_test_suite_rules ["aws", "gcp"] ["arm64"] ["test"] ["e2e"]
        "U" "D7" "up" "4.1" "" "" "e2e-upgrade" "4.1").2.1
      ["4.1"] [] "gcp" "amd64" [] rfl rfl (by decide) rfl rfl rfl,
    (upgrade_and_test_suite_rules ["aws", "gcp"] ["arm64"] ["test"] ["e2e"]
        "U" "D7" "up" "4.1" "" "" "e2e-upgrade" "4.1").2.2.2
      ["4.1"] "gcp" "amd64" [] rfl rfl (by decide) rfl rfl⟩

end CiChatBot
